import Mathlib

/-!
Verification of the GitHub API wrapper and document loaders of this
repository.  Go strings are modelled as lists of characters (`GoStr`);
the Go standard-library string functions used by the code are embedded
below with their Go semantics.  Remote GitHub calls are modelled by an
oracle structure `Remote` whose fields give the response of each REST
endpoint the code consults; write endpoints are additionally traced so
that "performs no remote write" is expressible.
-/

abbrev GoStr := List Char

/-- Apostrophe character, used to build message literals. -/
def apos : Char := Char.ofNat 39

/-- Go `unicode.IsSpace` restricted to the Latin-1 range, which covers
every space character occurring in the inputs considered here. -/
def goIsSpace (c : Char) : Bool :=
  c = ' ' || c = Char.ofNat 9 || c = Char.ofNat 10 || c = Char.ofNat 11 ||
  c = Char.ofNat 12 || c = Char.ofNat 13 || c = Char.ofNat 133 || c = Char.ofNat 160

/-- Drop the longest suffix whose characters all satisfy `p`
(the trailing half of Go `strings.TrimFunc`). -/
def goDropWhileEnd (p : Char → Bool) : GoStr → GoStr
  | [] => []
  | c :: rest =>
    match goDropWhileEnd p rest with
    | [] => if p c then [] else [c]
    | h :: t => c :: h :: t

/-- Go `strings.TrimSpace`. -/
def goTrimSpace (s : GoStr) : GoStr :=
  goDropWhileEnd goIsSpace (s.dropWhile goIsSpace)

/-- Go `strings.Trim s cutset`: remove leading and trailing characters
belonging to `cutset`. -/
def goTrimChars (s : GoStr) (cutset : GoStr) : GoStr :=
  goDropWhileEnd (fun c => cutset.contains c)
    (s.dropWhile (fun c => cutset.contains c))

/-- Go `strings.Split s sep` for a one-character separator (the only
separators the code uses with `Split` are "\n" and ","/";"). -/
def goSplitChar (sep : Char) : GoStr → List GoStr
  | [] => [[]]
  | c :: rest =>
    if c = sep then [] :: goSplitChar sep rest
    else
      match goSplitChar sep rest with
      | [] => [[c]]
      | h :: t => (c :: h) :: t

/-- Go `strings.SplitN s sep 2` for a one-character separator. -/
def goSplitN2 (sep : Char) : GoStr → List GoStr
  | [] => [[]]
  | c :: rest =>
    if c = sep then [[], rest]
    else
      match goSplitN2 sep rest with
      | [] => [[c]]
      | h :: t => (c :: h) :: t

/-- Go `strings.Join parts sep` for a one-character separator. -/
def goJoinChar (sep : Char) : List GoStr → GoStr
  | [] => []
  | [x] => x
  | x :: y :: xs => x ++ sep :: goJoinChar sep (y :: xs)

/-- Helper for `goIndex`: first index `≥ k` at which `sub` starts in the
remaining input. -/
def goIndexFrom (sub : GoStr) : GoStr → Nat → Option Nat
  | [], k => if sub.isPrefixOf ([] : GoStr) then some k else none
  | c :: t, k => if sub.isPrefixOf (c :: t) then some k else goIndexFrom sub t (k + 1)

/-- Go `strings.Index s sub`, with `none` standing for Go result `-1`. -/
def goIndex (s sub : GoStr) : Option Nat := goIndexFrom sub s 0

/-- Go `strings.Contains s sub`. -/
def goContains (s sub : GoStr) : Bool := (goIndex s sub).isSome

/-- Go slice expression `s[lo:hi]`; `none` models the runtime panic on
out-of-range bounds. -/
def goSlice (s : GoStr) (lo hi : Nat) : Option GoStr :=
  if lo ≤ hi ∧ hi ≤ s.length then some ((s.drop lo).take (hi - lo)) else none

/-- Go `strings.ReplaceAll s "" new`: `new` is inserted before every
character and after the last one. -/
def goInterleave (new : GoStr) : GoStr → GoStr
  | [] => new
  | c :: rest => new ++ c :: goInterleave new rest

/-- Scanning loop of Go `strings.Replace` for a nonempty pattern:
replace successive non-overlapping leftmost occurrences.  (In the
recursive call `rest.drop (old.length - 1)` equals
`(c :: rest).drop old.length` because `old` is nonempty there; the
former shape makes termination evident.) -/
def goReplaceLoop (old new : GoStr) : GoStr → GoStr
  | [] => []
  | c :: rest =>
    if old.isPrefixOf (c :: rest) then
      new ++ goReplaceLoop old new (rest.drop (old.length - 1))
    else
      c :: goReplaceLoop old new rest
termination_by s => s.length
decreasing_by
  · simp only [List.length_drop, List.length_cons]
    omega
  · simp only [List.length_cons]
    omega

/-- Go `strings.ReplaceAll s old new`. -/
def goReplaceAll (s old new : GoStr) : GoStr :=
  if old = [] then goInterleave new s else goReplaceLoop old new s

/-- Decimal rendering of a natural number (Go `fmt` verb `%d`,
`strconv.Itoa` on nonnegative values). -/
def goNatStr (n : Nat) : GoStr := (Nat.repr n).data

/-- Go `strconv.Itoa`. -/
def goItoa (n : Int) : GoStr :=
  if n < 0 then '-' :: goNatStr n.natAbs else goNatStr n.natAbs

/-- Byte-wise lexicographic order on strings, as used by `sort.Strings`
inside `url.Values.Encode`. -/
def goStrLe : GoStr → GoStr → Bool
  | [], _ => true
  | _ :: _, [] => false
  | a :: as, b :: bs => if a = b then goStrLe as bs else decide (a < b)

/-- Insertion step of the key sort performed by `url.Values.Encode`. -/
def goInsertSorted (x : GoStr × GoStr) : List (GoStr × GoStr) → List (GoStr × GoStr)
  | [] => [x]
  | y :: ys => if goStrLe x.1 y.1 then x :: y :: ys else y :: goInsertSorted x ys

/-- Sort key/value pairs by key (the keys built by `buildURL` are
pairwise distinct, so stability is irrelevant). -/
def goSortByKey : List (GoStr × GoStr) → List (GoStr × GoStr)
  | [] => []
  | x :: xs => goInsertSorted x (goSortByKey xs)

/-- Uppercase hexadecimal digit, for percent-encoding. -/
def goHexDigitUpper (n : Nat) : Char :=
  if n < 10 then Char.ofNat (48 + n) else Char.ofNat (55 + n)

/-- Character class escaped by Go `url.QueryEscape`: everything except
ASCII letters, digits and `-`, `.`, `_`, `~`. -/
def goShouldEscape (c : Char) : Bool :=
  !(('A' ≤ c && c ≤ 'Z') || ('a' ≤ c && c ≤ 'z') || ('0' ≤ c && c ≤ '9') ||
    c = '-' || c = '.' || c = '_' || c = Char.ofNat 126)

/-- Go `url.QueryEscape` on one character (characters are treated as
single bytes; all inputs of interest are ASCII). -/
def goQueryEscapeChar (c : Char) : GoStr :=
  if c = ' ' then ['+']
  else if goShouldEscape c then
    ['%', goHexDigitUpper (c.toNat / 16 % 16), goHexDigitUpper (c.toNat % 16)]
  else [c]

/-- Go `url.QueryEscape`. -/
def goQueryEscape (s : GoStr) : GoStr :=
  s.foldr (fun c acc => goQueryEscapeChar c ++ acc) []

/-- Go `url.Values.Encode`: sort keys, percent-encode keys and values,
join as `k=v` pairs with `&`. -/
def goEncodeValues (params : List (GoStr × GoStr)) : GoStr :=
  goJoinChar '&'
    ((goSortByKey params).map (fun kv => goQueryEscape kv.1 ++ '=' :: goQueryEscape kv.2))

/-- Go `fmt` verb `%v` applied to a `[]string`: elements joined by a
space between square brackets. -/
def goFmtStrSlice (xs : List GoStr) : GoStr :=
  '[' :: goJoinChar ' ' xs ++ [']']

/-!
Data model of the GitHub API wrapper (`githubapiwrapper.go`).  The
wrapper keeps a mutable active branch and a fixed base branch; `owner`
and `repoName` are threaded into every client call and are absorbed
into the `Remote` oracle, which is the repository-specific view of the
GitHub REST API.
-/

/-- Mutable state of `GitHubAPIWrapper` relevant to the verified
operations. -/
structure WrapperState where
  activeBranch : GoStr
  githubBaseBranch : GoStr
deriving DecidableEq, Repr

deriving instance DecidableEq for Except

/-- Response of `RepositoryContent` for a file: decoded content (Err on
base64 decode failure, mirroring `GetContent`) and the blob SHA. -/
structure FileContent where
  getContent : Except GoStr GoStr
  sha : GoStr
deriving DecidableEq, Repr

/-- Response of `Repositories.Get`. -/
structure RepoInfo where
  defaultBranch : GoStr
deriving DecidableEq, Repr

/-- Oracle giving the remote GitHub API responses for the repository
the wrapper is bound to.  Errors are represented by their rendered
message strings, which is all the code ever inspects. -/
structure Remote where
  reposGet : Except GoStr RepoInfo
  listBranches : Except GoStr (List GoStr)
  getRef : GoStr → Except GoStr GoStr
  createRef : GoStr → GoStr → Except GoStr Unit
  getContents : GoStr → GoStr → Except GoStr FileContent
  createFileResp : GoStr → Except GoStr Unit
  updateFileResp : GoStr → Except GoStr Unit
  deleteFileResp : GoStr → Except GoStr Unit

/-- One remote write issued through the GitHub contents API.  The
options record the commit message, branch and (for update and delete)
the SHA concurrency guard, exactly the fields the code fills in. -/
inductive WriteCall where
  | createFile (path : GoStr) (message : GoStr) (content : GoStr) (branch : GoStr)
  | updateFile (path : GoStr) (message : GoStr) (content : GoStr) (branch : GoStr) (sha : GoStr)
  | deleteFile (path : GoStr) (message : GoStr) (branch : GoStr) (sha : GoStr)
deriving DecidableEq, Repr

/-- Result of a wrapper operation that does not change wrapper state:
the returned string, the Go error (with `none` for `nil`), and the
trace of remote writes issued. -/
structure FileOpOut where
  result : GoStr
  err : Option GoStr
  writes : List WriteCall
deriving DecidableEq, Repr

/-- Result of a wrapper operation that may change wrapper state. -/
structure StateOpOut where
  result : GoStr
  err : Option GoStr
  st : WrapperState
deriving DecidableEq, Repr

/-- Result of `CreateBranch`, additionally tracing the branch names
passed to `Git.CreateRef` (the creation attempts). -/
structure CreateBranchOut where
  result : GoStr
  err : Option GoStr
  st : WrapperState
  calls : List GoStr
deriving DecidableEq, Repr

/-- Message of the protected-branch refusal shared by `CreateFile`,
`UpdateFile` and `DeleteFile`. -/
def protectedBranchMsg (base : GoStr) : GoStr :=
  "You".data ++ [apos] ++
  "re attempting to commit to the directly to the ".data ++ base ++
  " branch, which is protected. Please create a new branch and try again.".data

/-- No-op message of `UpdateFile` when the old block is not found. -/
def updateNoopMsg : GoStr :=
  ("File content was not updated because old content was not found. " ++
   "It may be helpful to use the read_file action to get the current file contents.").data

/-- Success message of `CreateBranch`. -/
def branchCreatedMsg (name : GoStr) : GoStr :=
  "Branch ".data ++ [apos] ++ name ++ [apos] ++
  " created successfully, and set as current active branch.".data

/-- Exhaustion message of `CreateBranch` after 1000 failed attempts. -/
def branchExhaustedMsg (proposed : GoStr) : GoStr :=
  ("Unable to create branch. At least 1000 branches exist with named " ++
   "derived from proposed_branch_name: `").data ++ proposed ++ "`".data

/-- Message of `SetActiveBranch` for a missing branch. -/
def branchMissingMsg (branchName : GoStr) (branchNames : List GoStr) : GoStr :=
  "Error ".data ++ branchName ++ " does not exist, in repo with current branches: ".data ++
  goFmtStrSlice branchNames

/-- `ReadFile` reads a file from the active branch; every failure is
rendered into the result string and the returned error is always nil. -/
def readFile (r : Remote) (st : WrapperState) (filePath : GoStr) : GoStr × Option GoStr :=
  match r.getContents filePath st.activeBranch with
  | .error e =>
    ("File not found `".data ++ filePath ++ "` on branch `".data ++ st.activeBranch ++
     "`. Error: ".data ++ e, none)
  | .ok fc =>
    match fc.getContent with
    | .error e => ("Failed to decode file content: ".data ++ e, none)
    | .ok content => (content, none)

/-- `SetActiveBranch` switches the active branch after checking that
the requested branch exists in the repository. -/
def setActiveBranch (r : Remote) (st : WrapperState) (branchName : GoStr) : StateOpOut :=
  match r.listBranches with
  | .error e => ⟨[], some ("failed to list branches: ".data ++ e), st⟩
  | .ok branchNames =>
    if branchName ∈ branchNames then
      ⟨"Switched to branch `".data ++ branchName ++ "`".data, none,
       { st with activeBranch := branchName }⟩
    else
      ⟨branchMissingMsg branchName branchNames, none, st⟩

/-- The branch name used by the i-th creation attempt of
`CreateBranch`: the proposed name first, then `_v1`, `_v2`, ... -/
def attemptName (proposed : GoStr) (i : Nat) : GoStr :=
  if i = 0 then proposed else proposed ++ "_v".data ++ goNatStr i

/-- Retry loop of `CreateBranch`.  `current` is the branch name of this
attempt, `i` the zero-based attempt counter, and the final argument the
remaining number of iterations (the Go loop runs while `i < 1000`). -/
def createBranchLoop (r : Remote) (st : WrapperState) (proposed sha : GoStr) :
    GoStr → Nat → Nat → CreateBranchOut
  | _, _, 0 => ⟨branchExhaustedMsg proposed, none, st, []⟩
  | current, i, n + 1 =>
    match r.createRef ("refs/heads/".data ++ current) sha with
    | .ok _ =>
      ⟨branchCreatedMsg current, none, { st with activeBranch := current }, [current]⟩
    | .error e =>
      if goContains e "Reference already exists".data then
        let out := createBranchLoop r st proposed sha (attemptName proposed (i + 1)) (i + 1) n
        ⟨out.result, out.err, out.st, current :: out.calls⟩
      else
        ⟨[], some ("failed to create branch: ".data ++ e), st, [current]⟩

/-- `CreateBranch` creates a branch off the base branch head, retrying
with `_v<N>` suffixes on name collisions, up to 1000 attempts. -/
def createBranch (r : Remote) (st : WrapperState) (proposed : GoStr) : CreateBranchOut :=
  match r.getRef ("refs/heads/".data ++ st.githubBaseBranch) with
  | .error e => ⟨[], some ("failed to get base branch: ".data ++ e), st, []⟩
  | .ok sha => createBranchLoop r st proposed sha proposed 0 1000

/-- `CreateFile` creates a new file on the active branch unless the
branch is protected or the file already exists. -/
def createFile (r : Remote) (st : WrapperState) (fileQuery : GoStr) : FileOpOut :=
  if st.activeBranch = st.githubBaseBranch then
    ⟨protectedBranchMsg st.githubBaseBranch, none, []⟩
  else
    let lines := goSplitN2 '\n' fileQuery
    if lines.length < 2 then ⟨"Invalid file format".data, none, []⟩
    else
      match lines with
      | filePath :: fileContents :: _ =>
        match r.getContents filePath st.activeBranch with
        | .ok _ =>
          ⟨"File already exists at `".data ++ filePath ++ "` on branch `".data ++
           st.activeBranch ++ "`. You must use `update_file` to modify it.".data, none, []⟩
        | .error _ =>
          let message := "Create ".data ++ filePath
          let call := WriteCall.createFile filePath message fileContents st.activeBranch
          match r.createFileResp filePath with
          | .error e => ⟨"Unable to make file due to error:\n".data ++ e, none, [call]⟩
          | .ok _ => ⟨"Created file ".data ++ filePath, none, [call]⟩
      | _ => ⟨"Invalid file format".data, none, []⟩

/-- `UpdateFile` substitutes an OLD block by a NEW block in an existing
file.  The `none` result models the Go slice panic which occurs when a
closing marker appears before the end of its opening marker. -/
def updateFile (r : Remote) (st : WrapperState) (fileQuery : GoStr) : Option FileOpOut :=
  if st.activeBranch = st.githubBaseBranch then
    some ⟨protectedBranchMsg st.githubBaseBranch, none, []⟩
  else
    match goSplitChar '\n' fileQuery with
    | [] => some ⟨"Invalid file format".data, none, []⟩
    | filePath :: rest =>
      let content := goJoinChar '\n' rest
      match goIndex content "OLD <<<<".data, goIndex content ">>>> OLD".data,
            goIndex content "NEW <<<<".data, goIndex content ">>>> NEW".data with
      | some oldStartIdx, some oldEndIdx, some newStartIdx, some newEndIdx =>
        match goSlice content (oldStartIdx + 8) oldEndIdx,
              goSlice content (newStartIdx + 8) newEndIdx with
        | some oldRaw, some newRaw =>
          let oldContent := goTrimSpace oldRaw
          let newContent := goTrimSpace newRaw
          let read := readFile r st filePath
          match read.2 with
          | some e => some ⟨"Failed to read current file: ".data ++ e, none, []⟩
          | none =>
            let currentContent := read.1
            let updatedContent := goReplaceAll currentContent oldContent newContent
            if currentContent = updatedContent then
              some ⟨updateNoopMsg, none, []⟩
            else
              match r.getContents filePath st.activeBranch with
              | .error e => some ⟨"Failed to get file SHA: ".data ++ e, none, []⟩
              | .ok fc =>
                let message := "Update ".data ++ filePath
                let call := WriteCall.updateFile filePath message updatedContent
                  st.activeBranch fc.sha
                match r.updateFileResp filePath with
                | .error e =>
                  some ⟨"Unable to update file due to error:\n".data ++ e, none, [call]⟩
                | .ok _ => some ⟨"Updated file ".data ++ filePath, none, [call]⟩
        | _, _ => none
      | _, _, _, _ =>
        some ⟨("Invalid update format: missing OLD <<<< ... >>>> OLD or " ++
               "NEW <<<< ... >>>> NEW markers").data, none, []⟩

/-- `DeleteFile` deletes a file from the active branch. -/
def deleteFile (r : Remote) (st : WrapperState) (filePath : GoStr) : FileOpOut :=
  if st.activeBranch = st.githubBaseBranch then
    ⟨protectedBranchMsg st.githubBaseBranch, none, []⟩
  else
    match r.getContents filePath st.activeBranch with
    | .error e => ⟨"Unable to delete file due to error:\n".data ++ e, none, []⟩
    | .ok fc =>
      let message := "Delete ".data ++ filePath
      let call := WriteCall.deleteFile filePath message st.activeBranch fc.sha
      match r.deleteFileResp filePath with
      | .error e => ⟨"Unable to delete file due to error:\n".data ++ e, none, [call]⟩
      | .ok _ => ⟨"Deleted file ".data ++ filePath, none, [call]⟩

/-!
Document-loader side (`github.go` of the documentloaders package).
JSON payloads are modelled by `JVal`; a decoded
`map[string]interface{}` is an association list `IssueObj`.  JSON
numbers are modelled as integers, which is faithful for every field the
code reads (issue numbers and comment counts).
-/

/-- A decoded JSON value (`interface{}` after `encoding/json`). -/
inductive JVal where
  | jnull
  | jbool (b : Bool)
  | jnum (n : Int)
  | jstr (s : GoStr)
  | jarr (items : List JVal)
  | jobj (fields : List (GoStr × JVal))
deriving Repr

/-- A decoded JSON object (`map[string]interface{}`). -/
abbrev IssueObj := List (GoStr × JVal)

/-- Field access on a decoded object (Go map indexing; keys are
pairwise distinct in a Go map, and lookup returns the first match). -/
def jLookup (data : IssueObj) (key : GoStr) : Option JVal := data.lookup key

/-- Helper `getString` of the loaders. -/
def getString (data : IssueObj) (key : GoStr) : GoStr :=
  match jLookup data key with
  | some (.jstr s) => s
  | _ => []

/-- Helper `getNestedString` of the loaders. -/
def getNestedString (data : IssueObj) (parentKey childKey : GoStr) : GoStr :=
  match jLookup data parentKey with
  | some (.jobj m) => getString m childKey
  | _ => []

/-- Helper `getFloat64` of the loaders (numbers modelled as `Int`). -/
def getFloat64 (data : IssueObj) (key : GoStr) : Int :=
  match jLookup data key with
  | some (.jnum n) => n
  | _ => 0

/-- Helper `getBool` of the loaders. -/
def getBool (data : IssueObj) (key : GoStr) : Bool :=
  match jLookup data key with
  | some (.jbool b) => b
  | _ => false

/-- Helper `extractLabels` of the loaders. -/
def extractLabels (issue : IssueObj) : List GoStr :=
  match jLookup issue "labels".data with
  | some (.jarr labels) =>
    labels.filterMap (fun label =>
      match label with
      | .jobj labelMap =>
        let name := getString labelMap "name".data
        if name = [] then none else some name
      | _ => none)
  | _ => []

/-- Helper `getAssignee` of the loaders. -/
def getAssignee (issue : IssueObj) : GoStr :=
  match jLookup issue "assignee".data with
  | some (.jobj assignee) => getString assignee "login".data
  | _ => []

/-- Helper `getMilestone` of the loaders. -/
def getMilestone (issue : IssueObj) : GoStr :=
  match jLookup issue "milestone".data with
  | some (.jobj milestone) => getString milestone "title".data
  | _ => []

/-- A metadata value stored by the issues document mapper. -/
inductive MetaVal where
  | mstr (s : GoStr)
  | mnum (n : Int)
  | mbool (b : Bool)
  | mlist (xs : List GoStr)
deriving DecidableEq, Repr

/-- `schema.Document`: page content plus string-keyed metadata. -/
structure Doc where
  pageContent : GoStr
  metadata : List (GoStr × MetaVal)
deriving DecidableEq, Repr

/-- Whether an issue payload carries a `pull_request` link (Go test
`issue["pull_request"] != nil`: the key is present with a non-null
value). -/
def hasPullRequestField (issue : IssueObj) : Bool :=
  match jLookup issue "pull_request".data with
  | none => false
  | some .jnull => false
  | some _ => true

/-- `parseIssue` of `GitHubIssuesLoader`: map one raw issue payload to
a document. -/
def parseIssue (issue : IssueObj) : Doc :=
  let metadata : List (GoStr × MetaVal) :=
    [("url".data, .mstr (getString issue "html_url".data)),
     ("title".data, .mstr (getString issue "title".data)),
     ("creator".data, .mstr (getNestedString issue "user".data "login".data)),
     ("created_at".data, .mstr (getString issue "created_at".data)),
     ("comments".data, .mnum (getFloat64 issue "comments".data)),
     ("state".data, .mstr (getString issue "state".data)),
     ("labels".data, .mlist (extractLabels issue)),
     ("assignee".data, .mstr (getAssignee issue)),
     ("milestone".data, .mstr (getMilestone issue)),
     ("locked".data, .mbool (getBool issue "locked".data)),
     ("number".data, .mnum (getFloat64 issue "number".data)),
     ("is_pull_request".data, .mbool (hasPullRequestField issue))]
  let content := getString issue "body".data
  let content := if content = [] then getString issue "title".data else content
  ⟨content, metadata⟩

/-- Inner loop of `getNextURL`: scan the comma-separated links for the
one tagged `rel="next"`. -/
def getNextURLLoop : List GoStr → GoStr
  | [] => []
  | link :: links =>
    let parts := goSplitChar ';' (goTrimSpace link)
    match parts with
    | [p0, p1] =>
      if goContains p1 "rel=\"next\"".data then goTrimChars (goTrimSpace p0) "<>".data
      else getNextURLLoop links
    | _ => getNextURLLoop links

/-- `getNextURL` of `GitHubIssuesLoader`: extract the `rel="next"` URL
from a `Link` response header, or the empty string when absent. -/
def getNextURL (linkHeader : GoStr) : GoStr :=
  if linkHeader = [] then []
  else getNextURLLoop (goSplitChar ',' linkHeader)

/-- `GitHubIssuesLoader`. -/
structure IssuesLoader where
  repo : GoStr
  accessToken : GoStr
  gitHubAPIURL : GoStr
  includePRs : Bool
  milestone : Option GoStr
  state : GoStr
  assignee : GoStr
  creator : GoStr
  mentioned : GoStr
  labels : List GoStr
  sort : GoStr
  direction : GoStr
  since : GoStr
  page : Option Int
  perPage : Option Int

/-- `NewGitHubIssuesLoader`.  `envToken` is the value of the
`GITHUB_PERSONAL_ACCESS_TOKEN` environment variable (empty when
unset); options are applied only after both constructor checks. -/
def newGitHubIssuesLoader (envToken : GoStr) (repo : GoStr)
    (opts : List (IssuesLoader → IssuesLoader)) : Except GoStr IssuesLoader :=
  if repo = [] then .error "repository cannot be empty".data
  else
    let loader : IssuesLoader :=
      { repo := repo, accessToken := envToken,
        gitHubAPIURL := "https://api.github.com".data, includePRs := true,
        milestone := none, state := "open".data, assignee := [], creator := [],
        mentioned := [], labels := [], sort := [], direction := [], since := [],
        page := none, perPage := none }
    if loader.accessToken = [] then
      .error "GITHUB_PERSONAL_ACCESS_TOKEN environment variable is required".data
    else .ok (opts.foldl (fun l opt => opt l) loader)

/-- `GitHubFileLoader`. -/
structure FileLoader where
  repo : GoStr
  accessToken : GoStr
  gitHubAPIURL : GoStr
  branch : GoStr
  fileFilter : Option (GoStr → Bool)

/-- `NewGitHubFileLoader`. -/
def newGitHubFileLoader (envToken : GoStr) (repo : GoStr)
    (opts : List (FileLoader → FileLoader)) : Except GoStr FileLoader :=
  if repo = [] then .error "repository cannot be empty".data
  else
    let loader : FileLoader :=
      { repo := repo, accessToken := envToken,
        gitHubAPIURL := "https://api.github.com".data, branch := "main".data,
        fileFilter := none }
    if loader.accessToken = [] then
      .error "GITHUB_PERSONAL_ACCESS_TOKEN environment variable is required".data
    else .ok (opts.foldl (fun l opt => opt l) loader)

/-- The query parameters accumulated by `buildURL`, in the order the
code adds them. -/
def buildParams (l : IssuesLoader) : List (GoStr × GoStr) :=
  (match l.milestone with
     | some m => [("milestone".data, m)]
     | none => []) ++
    (if l.state = [] then [] else [("state".data, l.state)]) ++
    (if l.assignee = [] then [] else [("assignee".data, l.assignee)]) ++
    (if l.creator = [] then [] else [("creator".data, l.creator)]) ++
    (if l.mentioned = [] then [] else [("mentioned".data, l.mentioned)]) ++
    (if l.labels = [] then [] else [("labels".data, goJoinChar ',' l.labels)]) ++
    (if l.sort = [] then [] else [("sort".data, l.sort)]) ++
    (if l.direction = [] then [] else [("direction".data, l.direction)]) ++
    (if l.since = [] then [] else [("since".data, l.since)]) ++
    (match l.page with
     | some p => [("page".data, goItoa p)]
     | none => []) ++
    (match l.perPage with
     | some pp => [("per_page".data, goItoa pp)]
     | none => [])

/-- `buildURL` of `GitHubIssuesLoader`. -/
def buildURL (l : IssuesLoader) : GoStr :=
  let baseURL := l.gitHubAPIURL ++ "/repos/".data ++ l.repo ++ "/issues".data
  let params : List (GoStr × GoStr) := buildParams l
  if params.length > 0 then baseURL ++ '?' :: goEncodeValues params else baseURL

/-- Response of one paginated GET in `Load`.  `fail` covers the three
error exits of an iteration (request creation, transport failure,
non-200 status, decode failure), each carrying its rendered message;
`okPage` carries the decoded issue array and the `Link` header. -/
inductive FetchResult where
  | fail (msg : GoStr)
  | okPage (issues : List IssueObj) (link : GoStr)

/-- The `Load` filter on one parsed document (pull requests are skipped
when `IncludePRs` is false).  `parseIssue` always stores a boolean
under `is_pull_request`, so the fallthrough arm is unreachable on its
output. -/
def docIsPullRequest (doc : Doc) : Bool :=
  match doc.metadata.lookup "is_pull_request".data with
  | some (.mbool b) => b
  | _ => false

/-- Body of the per-issue loop of `Load`. -/
def loadProcessIssue (l : IssuesLoader) (acc : List Doc) (issue : IssueObj) : List Doc :=
  let doc := parseIssue issue
  if !l.includePRs && docIsPullRequest doc then acc else acc ++ [doc]

/-- Marker result for a pagination walk that never reaches an empty
next-URL within the available fuel; the Go loop would still be
running, so no theorem below ever applies in this case. -/
def loadOutOfFuel : GoStr := "pagination walk still running".data

/-- The `for url != ""` loop of `Load`.  Returns the Go result together
with the trace of URLs fetched. -/
def loadLoop (fetch : GoStr → FetchResult) (l : IssuesLoader) :
    Nat → GoStr → List Doc → Except GoStr (List Doc) × List GoStr
  | _, [], acc => (.ok acc, [])
  | 0, _ :: _, _ => (.error loadOutOfFuel, [])
  | fuel + 1, c :: url, acc =>
    match fetch (c :: url) with
    | .fail msg => (.error msg, [c :: url])
    | .okPage issues link =>
      let acc := issues.foldl (loadProcessIssue l) acc
      if l.page.isSome || l.perPage.isSome then (.ok acc, [c :: url])
      else
        let rest := loadLoop fetch l fuel (getNextURL link) acc
        (rest.1, (c :: url) :: rest.2)

/-- `Load` of `GitHubIssuesLoader`. -/
def loadGo (fetch : GoStr → FetchResult) (l : IssuesLoader) (fuel : Nat) :
    Except GoStr (List Doc) × List GoStr :=
  loadLoop fetch l fuel (buildURL l) []

/-!
`NewGitHubAPIWrapper` (claim C4): configuration merged with the
process environment, credential checks, repository parsing, and the
initial `Repositories.Get` call.
-/

/-- `Config` of the wrapper package; empty strings stand for unset
fields, as in Go. -/
structure WrapperConfig where
  repository : GoStr
  appID : GoStr
  privateKey : GoStr
  activeBranch : GoStr
  gitHubBaseBranch : GoStr
deriving DecidableEq, Repr

/-- The three environment variables the wrapper constructor consults
(empty when unset). -/
structure WrapperEnv where
  repository : GoStr
  appID : GoStr
  privateKey : GoStr
deriving DecidableEq, Repr

/-- The fully constructed `GitHubAPIWrapper` fields. -/
structure WrapperInit where
  owner : GoStr
  repoName : GoStr
  st : WrapperState
  appID : GoStr
  privateKey : GoStr
deriving DecidableEq, Repr

/-- The env-variable fallback merge performed at the top of
`NewGitHubAPIWrapper`: each missing config field is taken from the
process environment. -/
def mergeConfig (env : WrapperEnv) (config : Option WrapperConfig) : WrapperConfig :=
  let c := config.getD ⟨[], [], [], [], []⟩
  let c := { c with repository := if c.repository = [] then env.repository else c.repository }
  let c := { c with appID := if c.appID = [] then env.appID else c.appID }
  { c with privateKey := if c.privateKey = [] then env.privateKey else c.privateKey }

/-- `NewGitHubAPIWrapper`.  The second component of the result is the
trace of remote calls made during construction (`Repositories.Get`,
tagged by owner and repository name). -/
def newGitHubAPIWrapper (env : WrapperEnv) (r : Remote) (config : Option WrapperConfig) :
    Except GoStr WrapperInit × List (GoStr × GoStr) :=
  let c := mergeConfig env config
  if c.repository = [] then (.error "GITHUB_REPOSITORY is required".data, [])
  else if c.appID = [] then (.error "GITHUB_APP_ID is required".data, [])
  else if c.privateKey = [] then (.error "GITHUB_APP_PRIVATE_KEY is required".data, [])
  else
    match goSplitChar '/' c.repository with
    | [owner, repoName] =>
      (match r.reposGet with
       | .error e => (.error ("failed to get repository: ".data ++ e), [(owner, repoName)])
       | .ok repo =>
         let baseBranch := if c.gitHubBaseBranch = [] then repo.defaultBranch
                           else c.gitHubBaseBranch
         let active := if c.activeBranch = [] then repo.defaultBranch else c.activeBranch
         (.ok ⟨owner, repoName, ⟨active, baseBranch⟩, c.appID, c.privateKey⟩,
          [(owner, repoName)]))
    | _ =>
      (.error ("invalid repository format: ".data ++ c.repository ++
               " (expected owner/repo)".data), [])

/-!
Basic lemmas about the embedded Go string functions.
-/

/-- The empty string occurs in every string. -/
theorem goNilIsInfix (l : GoStr) : ([] : GoStr) <:+: l :=
  ⟨[], l, by simp⟩

/-- An occurrence in the tail is an occurrence in the whole string. -/
theorem goIsInfixCons {l t : GoStr} {a : Char} (h : l <:+: t) : l <:+: a :: t := by
  rcases h with ⟨s, u, hh⟩
  exact ⟨a :: s, u, by rw [List.cons_append, List.cons_append, hh]⟩

/-- An occurrence in a nonempty string starts at the head or lies in
the tail. -/
theorem goIsInfixConsCases {l t : GoStr} {a : Char} (h : l <:+: a :: t) :
    l <+: a :: t ∨ l <:+: t := by
  rcases h with ⟨s, u, hh⟩
  cases s with
  | nil =>
    left
    exact ⟨u, by simpa using hh⟩
  | cons b s =>
    right
    rw [List.cons_append, List.cons_append] at hh
    injection hh with h1 h2
    exact ⟨s, u, h2⟩

/-- `goIndexFrom` finds an occurrence exactly when the pattern is an
substring of the scanned string. -/
theorem goIndexFrom_isSome_iff_isInfix (sub s : GoStr) (k : Nat) :
    (goIndexFrom sub s k).isSome = true ↔ sub <:+: s := by
  induction s generalizing k with
  | nil =>
    rw [goIndexFrom]
    cases hb : sub.isPrefixOf ([] : GoStr) with
    | true =>
      have h1 : sub <:+: [] := (List.isPrefixOf_iff_prefix.mp hb).isInfix
      simp [h1]
    | false =>
      simp only [Bool.false_eq_true, if_false, Option.isSome_none, false_iff]
      intro h
      rw [List.sublist_nil.mp h.sublist] at hb
      simp [List.isPrefixOf] at hb
  | cons c t ih =>
    rw [goIndexFrom]
    cases hb : sub.isPrefixOf (c :: t) with
    | true =>
      have h1 : sub <:+: c :: t := (List.isPrefixOf_iff_prefix.mp hb).isInfix
      simp [h1]
    | false =>
      simp only [Bool.false_eq_true, if_false, ih]
      constructor
      · exact fun h => goIsInfixCons h
      · intro h
        rcases goIsInfixConsCases h with h1 | h2
        · rw [List.isPrefixOf_iff_prefix.mpr h1] at hb
          cases hb
        · exact h2

/-- `goContains` decides the substring relation. -/
theorem goContains_iff_isInfix (s sub : GoStr) : goContains s sub = true ↔ sub <:+: s := by
  unfold goContains goIndex
  exact goIndexFrom_isSome_iff_isInfix sub s 0

/-- A found index is at least the start counter and leaves room for the
pattern inside the scanned string. -/
theorem goIndexFrom_bounds (sub : GoStr) :
    ∀ (s : GoStr) (k i : Nat), goIndexFrom sub s k = some i →
      k ≤ i ∧ i + sub.length ≤ k + s.length := by
  intro s
  induction s with
  | nil =>
    intro k i h
    rw [goIndexFrom] at h
    cases hb : sub.isPrefixOf ([] : GoStr) with
    | true =>
      rw [hb] at h
      simp only [if_true] at h
      have hs : sub = [] := List.prefix_nil.mp (List.isPrefixOf_iff_prefix.mp hb)
      cases h
      subst hs
      simp
    | false =>
      rw [hb] at h
      simp at h
  | cons c t ih =>
    intro k i h
    rw [goIndexFrom] at h
    cases hb : sub.isPrefixOf (c :: t) with
    | true =>
      rw [hb] at h
      simp only [if_true] at h
      cases h
      have hl := (List.isPrefixOf_iff_prefix.mp hb).length_le
      simp only [List.length_cons] at hl ⊢
      omega
    | false =>
      rw [hb] at h
      simp only [Bool.false_eq_true, if_false] at h
      have := ih (k + 1) i h
      simp only [List.length_cons]
      omega

/-- Bounds of `goIndex`: an occurrence fits inside the string. -/
theorem goIndex_bounds (s sub : GoStr) (i : Nat) (h : goIndex s sub = some i) :
    i + sub.length ≤ s.length := by
  have := goIndexFrom_bounds sub s 0 i h
  omega

/-- If the pattern does not occur, the replace loop is the identity. -/
theorem goReplaceLoop_of_not_isInfix (old new : GoStr) :
    ∀ s : GoStr, ¬ old <:+: s → goReplaceLoop old new s = s := by
  intro s
  induction s with
  | nil => intro _; rw [goReplaceLoop]
  | cons c t ih =>
    intro h
    rw [goReplaceLoop]
    cases hb : old.isPrefixOf (c :: t) with
    | true => exact absurd (List.isPrefixOf_iff_prefix.mp hb).isInfix h
    | false =>
      simp only [Bool.false_eq_true, if_false]
      rw [ih (fun hin => h (goIsInfixCons hin))]

/-- If the pattern does not occur in `s`, `goReplaceAll` returns `s`
unchanged (the `UpdateFile` no-change test). -/
theorem goReplaceAll_of_not_contains (s old new : GoStr)
    (h : goContains s old = false) : goReplaceAll s old new = s := by
  have hinf : ¬ old <:+: s := by
    intro hin
    rw [(goContains_iff_isInfix s old).mpr hin] at h
    cases h
  have hne : old ≠ [] := by
    intro he
    subst he
    exact hinf (goNilIsInfix s)
  unfold goReplaceAll
  simp only [hne, if_false]
  exact goReplaceLoop_of_not_isInfix old new s hinf

/-- `goSplitChar` never returns an empty list of parts. -/
theorem goSplitChar_ne_nil (sep : Char) (s : GoStr) : goSplitChar sep s ≠ [] := by
  cases s with
  | nil => simp [goSplitChar]
  | cons c t =>
    rw [goSplitChar]
    by_cases h : c = sep
    · simp [h]
    · simp only [h, if_false]
      cases goSplitChar sep t <;> simp

/-- Splitting a separator-free string yields that single part. -/
theorem goSplitChar_of_not_mem (sep : Char) :
    ∀ s : GoStr, sep ∉ s → goSplitChar sep s = [s] := by
  intro s
  induction s with
  | nil => intro _; rfl
  | cons c t ih =>
    intro h
    rw [goSplitChar]
    have hc : ¬ c = sep := fun he => h (he ▸ List.mem_cons_self c t)
    simp only [hc, if_false]
    rw [ih (fun hm => h (List.mem_cons_of_mem c hm))]

/-- Splitting peels off a separator-free leading part. -/
theorem goSplitChar_append (sep : Char) :
    ∀ (xs ys : GoStr), sep ∉ xs →
      goSplitChar sep (xs ++ sep :: ys) = xs :: goSplitChar sep ys := by
  intro xs
  induction xs with
  | nil =>
    intro ys _
    simp [goSplitChar]
  | cons c t ih =>
    intro ys h
    have hc : ¬ c = sep := fun he => h (he ▸ List.mem_cons_self c t)
    rw [List.cons_append, goSplitChar]
    simp only [hc, if_false]
    rw [ih ys (fun hm => h (List.mem_cons_of_mem c hm))]

/-- The first part produced by `goSplitChar` is a prefix of the input
and every later part is a substring of the input. -/
theorem goSplitChar_parts (sep : Char) :
    ∀ s : GoStr, ∃ h t, goSplitChar sep s = h :: t ∧ h <+: s ∧ ∀ p ∈ t, p <:+: s := by
  intro s
  induction s with
  | nil => exact ⟨[], [], rfl, List.nil_prefix, by simp⟩
  | cons c rest ih =>
    rcases ih with ⟨h, t, he, hp, ht⟩
    by_cases hc : c = sep
    · refine ⟨[], goSplitChar sep rest, ?_, List.nil_prefix, ?_⟩
      · rw [goSplitChar]; simp [hc]
      · intro p hm
        rw [he] at hm
        rcases List.mem_cons.mp hm with h1 | h2
        · subst h1; exact goIsInfixCons hp.isInfix
        · exact goIsInfixCons (ht p h2)
    · refine ⟨c :: h, t, ?_, ?_, ?_⟩
      · rw [goSplitChar]; simp only [hc, if_false]; rw [he]
      · rcases hp with ⟨tl, htl⟩
        exact ⟨tl, by rw [List.cons_append, htl]⟩
      · intro p hm; exact goIsInfixCons (ht p hm)

/-- Every part produced by `goSplitChar` is a substring of the input. -/
theorem goSplitChar_isInfix (sep : Char) (s part : GoStr)
    (h : part ∈ goSplitChar sep s) : part <:+: s := by
  rcases goSplitChar_parts sep s with ⟨hd, t, he, hp, ht⟩
  rw [he] at h
  rcases List.mem_cons.mp h with h1 | h2
  · subst h1; exact hp.isInfix
  · exact ht part h2

/-- `goDropWhileEnd` leaves a string alone when no character satisfies
the predicate. -/
theorem goDropWhileEnd_of_all_neg (p : Char → Bool) :
    ∀ s : GoStr, (∀ c ∈ s, p c = false) → goDropWhileEnd p s = s := by
  intro s
  induction s with
  | nil => intro _; rfl
  | cons c t ih =>
    intro h
    rw [goDropWhileEnd]
    rw [ih (fun d hd => h d (List.mem_cons_of_mem c hd))]
    cases t with
    | nil => simp [h c (List.mem_cons_self c [])]
    | cons d u => rfl

/-- `goDropWhileEnd` distributes over an append whose right part does
not vanish. -/
theorem goDropWhileEnd_append (p : Char → Bool) :
    ∀ (xs ys : GoStr), goDropWhileEnd p ys ≠ [] →
      goDropWhileEnd p (xs ++ ys) = xs ++ goDropWhileEnd p ys := by
  intro xs
  induction xs with
  | nil => intro ys _; rfl
  | cons c t ih =>
    intro ys h
    rw [List.cons_append, goDropWhileEnd, ih ys h]
    rcases he : goDropWhileEnd p ys with _ | ⟨d, u⟩
    · exact absurd he h
    · rcases t with _ | ⟨e, v⟩ <;> simp

/-- Dropping a satisfied last character. -/
theorem goDropWhileEnd_append_singleton (p : Char → Bool) (a : Char) (ha : p a = true) :
    ∀ xs : GoStr, goDropWhileEnd p (xs ++ [a]) = goDropWhileEnd p xs := by
  intro xs
  induction xs with
  | nil => simp [goDropWhileEnd, ha]
  | cons c t ih => rw [List.cons_append, goDropWhileEnd, ih, goDropWhileEnd]

/-- The trailing trim returns a prefix of its input. -/
theorem goDropWhileEnd_isPrefix (p : Char → Bool) :
    ∀ s : GoStr, goDropWhileEnd p s <+: s := by
  intro s
  induction s with
  | nil => exact List.nil_prefix
  | cons c t ih =>
    rw [goDropWhileEnd]
    rcases he : goDropWhileEnd p t with _ | ⟨d, u⟩
    · by_cases hc : p c
      · simp only [hc, if_true]; exact List.nil_prefix
      · simp only [hc, if_false]
        exact ⟨t, rfl⟩
    · rw [he] at ih
      rcases ih with ⟨tl, htl⟩
      exact ⟨tl, by rw [List.cons_append, htl]⟩

/-- `goTrimSpace` produces a substring of its input. -/
theorem goTrimSpace_isInfix (s : GoStr) : goTrimSpace s <:+: s := by
  unfold goTrimSpace
  exact ((goDropWhileEnd_isPrefix goIsSpace _).isInfix).trans
    ((List.dropWhile_suffix goIsSpace).isInfix)

/-- A string containing an occurrence of `sub` inside any substring
contains it itself. -/
theorem goContains_of_isInfix (s t sub : GoStr) (hst : s <:+: t)
    (h : goContains s sub = true) : goContains t sub = true :=
  (goContains_iff_isInfix t sub).mpr (((goContains_iff_isInfix s sub).mp h).trans hst)

/-!
Claim theorems.
-/

/-- C9: `ReadFile` never returns a non-nil error for any input; both
the missing-file case and the decode-failure case are rendered into the
returned string, so the error component is always nil. -/
theorem claim_C9_readFile_never_errors (r : Remote) (st : WrapperState) (filePath : GoStr) :
    (readFile r st filePath).2 = none := by
  unfold readFile
  split
  · rfl
  · split
    · rfl
    · rfl

/-- C7: the document mapper returns the issue body as content, falling
back to the title when the body is empty; hence the content is nonempty
whenever the issue title is nonempty. -/
theorem claim_C7_parseIssue_content (issue : IssueObj) :
    (parseIssue issue).pageContent =
      (if getString issue "body".data = [] then getString issue "title".data
       else getString issue "body".data) ∧
    (getString issue "title".data ≠ [] → (parseIssue issue).pageContent ≠ []) := by
  constructor
  · rfl
  · intro ht
    unfold parseIssue
    by_cases hb : getString issue "body".data = []
    · simp only [hb, if_pos]
      simpa using ht
    · simp only [hb, if_neg]
      simpa using hb

/-- C7 witness: an issue with a title and no body maps to a document
with nonempty content. -/
theorem claim_C7_parseIssue_content_witness :
    getString [("title".data, JVal.jstr "T".data)] "title".data ≠ [] ∧
    (parseIssue [("title".data, JVal.jstr "T".data)]).pageContent ≠ [] :=
  ⟨by decide, (claim_C7_parseIssue_content [("title".data, JVal.jstr "T".data)]).2 (by decide)⟩

/-- C3: with the active branch equal to the base branch, `CreateFile`,
`UpdateFile` and `DeleteFile` each issue no remote write and return the
protected-branch refusal message with a nil error. -/
theorem claim_C3_protected_branch (r : Remote) (st : WrapperState) (q : GoStr)
    (h : st.activeBranch = st.githubBaseBranch) :
    createFile r st q = ⟨protectedBranchMsg st.githubBaseBranch, none, []⟩ ∧
    updateFile r st q = some ⟨protectedBranchMsg st.githubBaseBranch, none, []⟩ ∧
    deleteFile r st q = ⟨protectedBranchMsg st.githubBaseBranch, none, []⟩ := by
  refine ⟨?_, ?_, ?_⟩
  · unfold createFile; simp [h]
  · unfold updateFile; simp [h]
  · unfold deleteFile; simp [h]

/-- Remote oracle used by the C3 witness. -/
def c3Remote : Remote :=
  { reposGet := .ok ⟨"main".data⟩,
    listBranches := .ok ["main".data],
    getRef := fun _ => .ok "sha0".data,
    createRef := fun _ _ => .ok (),
    getContents := fun _ _ => .error "404".data,
    createFileResp := fun _ => .ok (),
    updateFileResp := fun _ => .ok (),
    deleteFileResp := fun _ => .ok () }

/-- C3 witness: a wrapper whose active branch is the base branch
refuses all three file mutations. -/
theorem claim_C3_protected_branch_witness :
    (⟨"main".data, "main".data⟩ : WrapperState).activeBranch =
      (⟨"main".data, "main".data⟩ : WrapperState).githubBaseBranch ∧
    createFile c3Remote ⟨"main".data, "main".data⟩ "f.txt\nhello".data =
      ⟨protectedBranchMsg "main".data, none, []⟩ ∧
    updateFile c3Remote ⟨"main".data, "main".data⟩ "f.txt\nx".data =
      some ⟨protectedBranchMsg "main".data, none, []⟩ ∧
    deleteFile c3Remote ⟨"main".data, "main".data⟩ "f.txt".data =
      ⟨protectedBranchMsg "main".data, none, []⟩ :=
  ⟨rfl,
   (claim_C3_protected_branch c3Remote ⟨"main".data, "main".data⟩ "f.txt\nhello".data rfl).1,
   (claim_C3_protected_branch c3Remote ⟨"main".data, "main".data⟩ "f.txt\nx".data rfl).2.1,
   (claim_C3_protected_branch c3Remote ⟨"main".data, "main".data⟩ "f.txt".data rfl).2.2⟩

/-- C8: `SetActiveBranch` on a branch that does not exist returns the
does-not-exist message with nil error and unchanged state, and the
active-branch field is mutated only when the requested branch exists. -/
theorem claim_C8_setActiveBranch (r : Remote) (st : WrapperState) (branchName : GoStr) :
    (∀ names, r.listBranches = .ok names → branchName ∉ names →
      setActiveBranch r st branchName = ⟨branchMissingMsg branchName names, none, st⟩) ∧
    ((setActiveBranch r st branchName).st ≠ st →
      ∃ names, r.listBranches = .ok names ∧ branchName ∈ names ∧
        (setActiveBranch r st branchName).st = { st with activeBranch := branchName }) := by
  constructor
  · intro names hn hmem
    unfold setActiveBranch
    rw [hn]
    simp [hmem]
  · intro hne
    unfold setActiveBranch at hne ⊢
    cases hl : r.listBranches with
    | error e =>
      rw [hl] at hne
      simp at hne
    | ok names =>
      rw [hl] at hne
      by_cases hm : branchName ∈ names
      · refine ⟨names, rfl, hm, ?_⟩
        simp [hm]
      · simp [hm] at hne

/-- Remote oracle used by the C8 witness. -/
def c8Remote : Remote :=
  { c3Remote with listBranches := .ok ["main".data, "dev".data] }

/-- C8 witness: requesting a branch that is not listed leaves the state
unchanged and reports the does-not-exist message. -/
theorem claim_C8_setActiveBranch_witness :
    c8Remote.listBranches = .ok ["main".data, "dev".data] ∧
    "feat".data ∉ ["main".data, "dev".data] ∧
    setActiveBranch c8Remote ⟨"main".data, "main".data⟩ "feat".data =
      ⟨branchMissingMsg "feat".data ["main".data, "dev".data], none,
       ⟨"main".data, "main".data⟩⟩ :=
  ⟨rfl, by decide,
   (claim_C8_setActiveBranch c8Remote ⟨"main".data, "main".data⟩ "feat".data).1
     ["main".data, "dev".data] rfl (by decide)⟩

/-- C1: when the payload parses into a path line and well-formed OLD
and NEW marker blocks, and the whitespace-trimmed OLD block does not
occur verbatim in the current file content, `UpdateFile` issues no
remote write and returns the no-op message with a nil error. -/
theorem claim_C1_updateFile_noop (r : Remote) (st : WrapperState)
    (fileQuery filePath current sha0 : GoStr) (rest : List GoStr)
    (i1 i2 i3 i4 : Nat)
    (hbr : ¬ st.activeBranch = st.githubBaseBranch)
    (hsplit : goSplitChar '\n' fileQuery = filePath :: rest)
    (h1 : goIndex (goJoinChar '\n' rest) "OLD <<<<".data = some i1)
    (h2 : goIndex (goJoinChar '\n' rest) ">>>> OLD".data = some i2)
    (h3 : goIndex (goJoinChar '\n' rest) "NEW <<<<".data = some i3)
    (h4 : goIndex (goJoinChar '\n' rest) ">>>> NEW".data = some i4)
    (hlo : i1 + 8 ≤ i2) (hln : i3 + 8 ≤ i4)
    (hread : r.getContents filePath st.activeBranch = .ok ⟨.ok current, sha0⟩)
    (hnf : goContains current
      (goTrimSpace (((goJoinChar '\n' rest).drop (i1 + 8)).take (i2 - (i1 + 8)))) = false) :
    updateFile r st fileQuery = some ⟨updateNoopMsg, none, []⟩ := by
  have hb2 : i2 + 8 ≤ (goJoinChar '\n' rest).length := by
    have := goIndex_bounds _ _ _ h2
    simpa using this
  have hb4 : i4 + 8 ≤ (goJoinChar '\n' rest).length := by
    have := goIndex_bounds _ _ _ h4
    simpa using this
  have hs1 : goSlice (goJoinChar '\n' rest) (i1 + 8) i2 =
      some (((goJoinChar '\n' rest).drop (i1 + 8)).take (i2 - (i1 + 8))) := by
    unfold goSlice
    rw [if_pos (⟨hlo, by omega⟩ : i1 + 8 ≤ i2 ∧ i2 ≤ (goJoinChar '\n' rest).length)]
  have hs2 : goSlice (goJoinChar '\n' rest) (i3 + 8) i4 =
      some (((goJoinChar '\n' rest).drop (i3 + 8)).take (i4 - (i3 + 8))) := by
    unfold goSlice
    rw [if_pos (⟨hln, by omega⟩ : i3 + 8 ≤ i4 ∧ i4 ≤ (goJoinChar '\n' rest).length)]
  have hr : readFile r st filePath = (current, none) := by
    unfold readFile
    rw [hread]
  have hrep := goReplaceAll_of_not_contains current
    (goTrimSpace (((goJoinChar '\n' rest).drop (i1 + 8)).take (i2 - (i1 + 8))))
    (goTrimSpace (((goJoinChar '\n' rest).drop (i3 + 8)).take (i4 - (i3 + 8)))) hnf
  unfold updateFile
  rw [if_neg hbr, hsplit]
  simp only [h1, h2, h3, h4, hs1, hs2, hr, hrep, if_pos rfl]
  rw [if_pos trivial]

/-- Remote oracle used by the C1 witness: one readable file on branch
`feat` whose content does not contain the OLD block. -/
def c1Remote : Remote :=
  { c3Remote with
    getContents := fun p b =>
      if p = "f.txt".data ∧ b = "feat".data then
        .ok ⟨.ok "hello world".data, "sha1".data⟩
      else .error "Not Found".data }

/-- Update payload used by the C1 witness. -/
def c1Query : GoStr :=
  "f.txt\nOLD <<<<\nabsent\n>>>> OLD\nNEW <<<<\nnew\n>>>> NEW".data

/-- Parsed remainder lines of the C1 witness payload. -/
def c1Rest : List GoStr :=
  ["OLD <<<<".data, "absent".data, ">>>> OLD".data,
   "NEW <<<<".data, "new".data, ">>>> NEW".data]

/-- C1 witness: a payload whose OLD block (`absent`) does not occur in
the current content (`hello world`) produces the no-op outcome. -/
theorem claim_C1_updateFile_noop_witness :
    goContains "hello world".data
      (goTrimSpace (((goJoinChar '\n' c1Rest).drop (0 + 8)).take (16 - (0 + 8)))) = false ∧
    updateFile c1Remote ⟨"feat".data, "main".data⟩ c1Query =
      some ⟨updateNoopMsg, none, []⟩ :=
  ⟨by decide,
   claim_C1_updateFile_noop c1Remote ⟨"feat".data, "main".data⟩ c1Query
     "f.txt".data "hello world".data "sha1".data c1Rest 0 16 25 38
     (by decide) (by decide) (by decide) (by decide) (by decide) (by decide)
     (by decide) (by decide) (by decide) (by decide)⟩

/-- A `CreateRef` outcome that the retry loop treats as a name
collision: an error whose message contains "Reference already exists". -/
def refConflict (r : Remote) (sha name : GoStr) : Prop :=
  ∃ e, r.createRef ("refs/heads/".data ++ name) sha = .error e ∧
       goContains e "Reference already exists".data = true

/-- Unfolding of `attemptName` at a positive index. -/
theorem attemptName_succ (proposed : GoStr) (i : Nat) :
    attemptName proposed (i + 1) = proposed ++ "_v".data ++ goNatStr (i + 1) := by
  simp [attemptName]

/-- The calls made by the retry loop are the consecutive attempt names
starting at the current counter. -/
theorem createBranchLoop_calls (r : Remote) (st : WrapperState) (proposed sha : GoStr) :
    ∀ (n i : Nat), ∃ m, m ≤ n ∧
      (createBranchLoop r st proposed sha (attemptName proposed i) i n).calls =
        (List.range' i m).map (attemptName proposed) := by
  intro n
  induction n with
  | zero =>
    intro i
    exact ⟨0, Nat.le_refl 0, rfl⟩
  | succ n ih =>
    intro i
    rw [createBranchLoop]
    cases hc : r.createRef ("refs/heads/".data ++ attemptName proposed i) sha with
    | ok u =>
      refine ⟨1, by omega, ?_⟩
      rfl
    | error e =>
      by_cases hr : goContains e "Reference already exists".data
      · simp only [hr, if_true]
        rcases ih (i + 1) with ⟨m, hm, hcalls⟩
        refine ⟨m + 1, by omega, ?_⟩
        simp only [hcalls, List.range'_succ, List.map_cons]
      · simp only [hr, if_false]
        refine ⟨1, by omega, ?_⟩
        rfl

/-- When every attempt within the remaining budget collides, the retry
loop exhausts its budget and reports the give-up message with nil
error, leaving the wrapper state unchanged. -/
theorem createBranchLoop_exhaust (r : Remote) (st : WrapperState) (proposed sha : GoStr) :
    ∀ (n i : Nat), (∀ j, j < n → refConflict r sha (attemptName proposed (i + j))) →
      createBranchLoop r st proposed sha (attemptName proposed i) i n =
        ⟨branchExhaustedMsg proposed, none, st,
         (List.range' i n).map (attemptName proposed)⟩ := by
  intro n
  induction n with
  | zero =>
    intro i _
    rfl
  | succ n ih =>
    intro i hall
    rcases hall 0 (Nat.succ_pos n) with ⟨e, he, hconf⟩
    rw [createBranchLoop]
    rw [Nat.add_zero] at he
    rw [he]
    simp only [hconf, if_true]
    have hrec := ih (i + 1) (fun j hj => by
      have h := hall (j + 1) (by omega)
      have e1 : i + 1 + j = i + (j + 1) := by omega
      rw [e1]
      exact h)
    simp only [hrec, List.range'_succ, List.map_cons]

/-- When the first non-colliding attempt succeeds, the retry loop
creates that branch, sets it active and stops. -/
theorem createBranchLoop_success (r : Remote) (st : WrapperState) (proposed sha : GoStr) :
    ∀ (n i k : Nat), k < n →
      (∀ j, j < k → refConflict r sha (attemptName proposed (i + j))) →
      r.createRef ("refs/heads/".data ++ attemptName proposed (i + k)) sha = .ok () →
      createBranchLoop r st proposed sha (attemptName proposed i) i n =
        ⟨branchCreatedMsg (attemptName proposed (i + k)), none,
         { st with activeBranch := attemptName proposed (i + k) },
         (List.range' i (k + 1)).map (attemptName proposed)⟩ := by
  intro n
  induction n with
  | zero =>
    intro i k hk
    omega
  | succ n ih =>
    intro i k hk hconf hok
    cases k with
    | zero =>
      rw [createBranchLoop]
      rw [Nat.add_zero] at hok
      rw [hok]
      rfl
    | succ k =>
      rcases hconf 0 (Nat.succ_pos k) with ⟨e, he, hc⟩
      rw [createBranchLoop]
      rw [Nat.add_zero] at he
      rw [he]
      simp only [hc, if_true]
      have hrec := ih (i + 1) k (by omega)
        (fun j hj => by
          have h := hconf (j + 1) (by omega)
          have e1 : i + 1 + j = i + (j + 1) := by omega
          rw [e1]
          exact h)
        (by
          have e2 : i + 1 + k = i + (k + 1) := by omega
          rw [e2]
          exact hok)
      rw [hrec]
      simp only [List.range'_succ, List.map_cons]
      rw [show i + 1 + k = i + (k + 1) from by omega]

/-- When the first non-colliding attempt fails with any other error,
the retry loop aborts immediately with a hard error, leaving the
wrapper state unchanged. -/
theorem createBranchLoop_abort (r : Remote) (st : WrapperState) (proposed sha : GoStr) :
    ∀ (n i k : Nat) (e : GoStr), k < n →
      (∀ j, j < k → refConflict r sha (attemptName proposed (i + j))) →
      r.createRef ("refs/heads/".data ++ attemptName proposed (i + k)) sha = .error e →
      goContains e "Reference already exists".data = false →
      createBranchLoop r st proposed sha (attemptName proposed i) i n =
        ⟨[], some ("failed to create branch: ".data ++ e), st,
         (List.range' i (k + 1)).map (attemptName proposed)⟩ := by
  intro n
  induction n with
  | zero =>
    intro i k e hk
    omega
  | succ n ih =>
    intro i k e hk hconf herr hnc
    cases k with
    | zero =>
      rw [createBranchLoop]
      rw [Nat.add_zero] at herr
      rw [herr]
      simp only [hnc, Bool.false_eq_true, if_false]
      rfl
    | succ k =>
      rcases hconf 0 (Nat.succ_pos k) with ⟨e0, he0, hc0⟩
      rw [createBranchLoop]
      rw [Nat.add_zero] at he0
      rw [he0]
      simp only [hc0, if_true]
      have hrec := ih (i + 1) k e (by omega)
        (fun j hj => by
          have h := hconf (j + 1) (by omega)
          have e1 : i + 1 + j = i + (j + 1) := by omega
          rw [e1]
          exact h)
        (by
          have e2 : i + 1 + k = i + (k + 1) := by omega
          rw [e2]
          exact herr)
        hnc
      rw [hrec]
      simp only [List.range'_succ, List.map_cons]

/-- Frame property of the retry loop: either the wrapper state is
unchanged, or the loop ended in success, its result names the new
active branch, and the base branch is untouched. -/
theorem createBranchLoop_frame (r : Remote) (st : WrapperState) (proposed sha : GoStr) :
    ∀ (n : Nat) (current : GoStr) (i : Nat),
      (createBranchLoop r st proposed sha current i n).st = st ∨
      ((createBranchLoop r st proposed sha current i n).err = none ∧
       (createBranchLoop r st proposed sha current i n).result =
         branchCreatedMsg (createBranchLoop r st proposed sha current i n).st.activeBranch ∧
       (createBranchLoop r st proposed sha current i n).st.githubBaseBranch =
         st.githubBaseBranch) := by
  intro n
  induction n with
  | zero => intro current i; exact Or.inl rfl
  | succ n ih =>
    intro current i
    rw [createBranchLoop]
    cases hc : r.createRef ("refs/heads/".data ++ current) sha with
    | ok u => exact Or.inr ⟨rfl, rfl, rfl⟩
    | error e =>
      by_cases hr : goContains e "Reference already exists".data
      · simp only [hr, if_true]
        exact ih (attemptName proposed (i + 1)) (i + 1)
      · simp only [hr, if_false]
        exact Or.inl rfl

/-- C2: `CreateBranch` attempts the proposed name first and then the
`_v1`, `_v2`, ... variants in increasing order, makes at most 1000
creation attempts, reports the descriptive give-up message after 1000
collisions, stops at the first successful attempt, and aborts
immediately on any creation error other than the already-exists
conflict. -/
theorem claim_C2_createBranch_retry (r : Remote) (st : WrapperState) (proposed sha : GoStr)
    (href : r.getRef ("refs/heads/".data ++ st.githubBaseBranch) = .ok sha) :
    (∃ m, m ≤ 1000 ∧ (createBranch r st proposed).calls =
      (List.range' 0 m).map (attemptName proposed)) ∧
    ((∀ j, j < 1000 → refConflict r sha (attemptName proposed j)) →
      createBranch r st proposed =
        ⟨branchExhaustedMsg proposed, none, st,
         (List.range' 0 1000).map (attemptName proposed)⟩) ∧
    (∀ k, k < 1000 → (∀ j, j < k → refConflict r sha (attemptName proposed j)) →
      r.createRef ("refs/heads/".data ++ attemptName proposed k) sha = .ok () →
      createBranch r st proposed =
        ⟨branchCreatedMsg (attemptName proposed k), none,
         { st with activeBranch := attemptName proposed k },
         (List.range' 0 (k + 1)).map (attemptName proposed)⟩) ∧
    (∀ k e, k < 1000 → (∀ j, j < k → refConflict r sha (attemptName proposed j)) →
      r.createRef ("refs/heads/".data ++ attemptName proposed k) sha = .error e →
      goContains e "Reference already exists".data = false →
      createBranch r st proposed =
        ⟨[], some ("failed to create branch: ".data ++ e), st,
         (List.range' 0 (k + 1)).map (attemptName proposed)⟩) := by
  have hcb : createBranch r st proposed =
      createBranchLoop r st proposed sha (attemptName proposed 0) 0 1000 := by
    unfold createBranch
    rw [href]
    rfl
  refine ⟨?_, ?_, ?_, ?_⟩
  · rcases createBranchLoop_calls r st proposed sha 1000 0 with ⟨m, hm, he⟩
    exact ⟨m, hm, by rw [hcb]; exact he⟩
  · intro hall
    rw [hcb]
    exact createBranchLoop_exhaust r st proposed sha 1000 0
      (fun j hj => by rw [Nat.zero_add]; exact hall j hj)
  · intro k hk hconf hok
    rw [hcb]
    have h := createBranchLoop_success r st proposed sha 1000 0 k hk
      (fun j hj => by rw [Nat.zero_add]; exact hconf j hj)
      (by rw [Nat.zero_add]; exact hok)
    rw [Nat.zero_add] at h
    exact h
  · intro k e hk hconf herr hnc
    rw [hcb]
    have h := createBranchLoop_abort r st proposed sha 1000 0 k e hk
      (fun j hj => by rw [Nat.zero_add]; exact hconf j hj)
      (by rw [Nat.zero_add]; exact herr)
      hnc
    exact h

/-- Remote oracle used by the C2 witness: the proposed name and its
first variant collide, the second variant is free. -/
def c2Remote : Remote :=
  { c3Remote with
    createRef := fun ref _ =>
      if ref = "refs/heads/feat".data ∨ ref = "refs/heads/feat_v1".data then
        .error "Reference already exists".data
      else .ok () }

/-- C2 witness: with `feat` and `feat_v1` taken, `CreateBranch feat`
succeeds on the third attempt as `feat_v2`. -/
theorem claim_C2_createBranch_retry_witness :
    c2Remote.getRef ("refs/heads/".data ++ "main".data) = .ok "sha0".data ∧
    c2Remote.createRef ("refs/heads/".data ++ attemptName "feat".data 2) "sha0".data = .ok () ∧
    createBranch c2Remote ⟨"main".data, "main".data⟩ "feat".data =
      ⟨branchCreatedMsg (attemptName "feat".data 2), none,
       ⟨attemptName "feat".data 2, "main".data⟩,
       (List.range' 0 (2 + 1)).map (attemptName "feat".data)⟩ :=
  ⟨rfl, by decide,
   (claim_C2_createBranch_retry c2Remote ⟨"main".data, "main".data⟩ "feat".data "sha0".data
      rfl).2.2.1 2 (by omega)
     (by
       intro j hj
       interval_cases j
       · exact ⟨"Reference already exists".data, by decide, by decide⟩
       · exact ⟨"Reference already exists".data, by decide, by decide⟩)
     (by decide)⟩

/-- C10: `CreateBranch` mutates the active branch exactly on success:
the generic frame property says the state is unchanged unless the
result is the success message naming the new active branch; the three
case conclusions pin the new active branch to the created name on
success and to the old state on base-ref failure, exhaustion, or a hard
creation error. -/
theorem claim_C10_createBranch_state (r : Remote) (st : WrapperState) (proposed : GoStr) :
    ((createBranch r st proposed).st = st ∨
     ((createBranch r st proposed).err = none ∧
      (createBranch r st proposed).result =
        branchCreatedMsg (createBranch r st proposed).st.activeBranch ∧
      (createBranch r st proposed).st.githubBaseBranch = st.githubBaseBranch)) ∧
    (∀ e, r.getRef ("refs/heads/".data ++ st.githubBaseBranch) = .error e →
      (createBranch r st proposed).st = st) ∧
    (∀ sha, r.getRef ("refs/heads/".data ++ st.githubBaseBranch) = .ok sha →
      ((∀ j, j < 1000 → refConflict r sha (attemptName proposed j)) →
        (createBranch r st proposed).st = st) ∧
      (∀ k, k < 1000 → (∀ j, j < k → refConflict r sha (attemptName proposed j)) →
        r.createRef ("refs/heads/".data ++ attemptName proposed k) sha = .ok () →
        (createBranch r st proposed).st.activeBranch = attemptName proposed k ∧
        (createBranch r st proposed).result = branchCreatedMsg (attemptName proposed k)) ∧
      (∀ k e, k < 1000 → (∀ j, j < k → refConflict r sha (attemptName proposed j)) →
        r.createRef ("refs/heads/".data ++ attemptName proposed k) sha = .error e →
        goContains e "Reference already exists".data = false →
        (createBranch r st proposed).st = st)) := by
  refine ⟨?_, ?_, ?_⟩
  · cases hg : r.getRef ("refs/heads/".data ++ st.githubBaseBranch) with
    | error e =>
      left
      unfold createBranch
      rw [hg]
    | ok sha =>
      have hcb : createBranch r st proposed =
          createBranchLoop r st proposed sha proposed 0 1000 := by
        unfold createBranch
        rw [hg]
      rw [hcb]
      exact createBranchLoop_frame r st proposed sha 1000 proposed 0
  · intro e hg
    unfold createBranch
    rw [hg]
  · intro sha hg
    have hcb : createBranch r st proposed =
        createBranchLoop r st proposed sha (attemptName proposed 0) 0 1000 := by
      unfold createBranch
      rw [hg]
      rfl
    refine ⟨?_, ?_, ?_⟩
    · intro hall
      rw [hcb, createBranchLoop_exhaust r st proposed sha 1000 0
        (fun j hj => by rw [Nat.zero_add]; exact hall j hj)]
    · intro k hk hconf hok
      have h := createBranchLoop_success r st proposed sha 1000 0 k hk
        (fun j hj => by rw [Nat.zero_add]; exact hconf j hj)
        (by rw [Nat.zero_add]; exact hok)
      rw [Nat.zero_add] at h
      rw [hcb, h]
      exact ⟨rfl, rfl⟩
    · intro k e hk hconf herr hnc
      have h := createBranchLoop_abort r st proposed sha 1000 0 k e hk
        (fun j hj => by rw [Nat.zero_add]; exact hconf j hj)
        (by rw [Nat.zero_add]; exact herr)
        hnc
      rw [hcb, h]

/-- Remote oracle used by the C10 witness: fetching the base branch
head fails. -/
def c10Remote : Remote :=
  { c3Remote with getRef := fun _ => .error "boom".data }

/-- C10 witness: when the base-branch lookup fails, `CreateBranch`
leaves the wrapper state unchanged. -/
theorem claim_C10_createBranch_state_witness :
    c10Remote.getRef ("refs/heads/".data ++ "main".data) = .error "boom".data ∧
    (createBranch c10Remote ⟨"dev".data, "main".data⟩ "feat".data).st =
      ⟨"dev".data, "main".data⟩ :=
  ⟨rfl,
   (claim_C10_createBranch_state c10Remote ⟨"dev".data, "main".data⟩
      "feat".data).2.1 "boom".data rfl⟩

/-- If a Link header does not contain the text rel="next" at all, the
link scan finds nothing. -/
theorem getNextURLLoop_of_not_contains (hh : GoStr)
    (hnc : goContains hh "rel=\"next\"".data = false) :
    ∀ links : List GoStr, (∀ l ∈ links, l <:+: hh) → getNextURLLoop links = [] := by
  intro links
  induction links with
  | nil => intro _; rfl
  | cons link rest ih =>
    intro hmem
    have hrest : ∀ l ∈ rest, l <:+: hh :=
      fun l hl => hmem l (List.mem_cons_of_mem link hl)
    rw [getNextURLLoop]
    rcases hp : goSplitChar ';' (goTrimSpace link) with _ | ⟨p0, _ | ⟨p1, _ | ⟨p2, ps⟩⟩⟩
    · exact ih hrest
    · exact ih hrest
    · have hp1 : p1 <:+: hh := by
        have h1 : p1 ∈ goSplitChar ';' (goTrimSpace link) := by
          rw [hp]
          exact List.mem_cons_of_mem p0 (List.mem_cons_self p1 [])
        exact ((goSplitChar_isInfix ';' (goTrimSpace link) p1 h1).trans
          (goTrimSpace_isInfix link)).trans (hmem link (List.mem_cons_self link rest))
      have hf : goContains p1 "rel=\"next\"".data = false := by
        cases hb : goContains p1 "rel=\"next\"".data with
        | false => rfl
        | true =>
          rw [goContains_of_isInfix p1 hh "rel=\"next\"".data hp1 hb] at hnc
          cases hnc
      simp only [hf, Bool.false_eq_true, if_false]
      exact ih hrest
    · exact ih hrest

/-- One step of the link scan when the current link splits into exactly
two `;`-parts. -/
theorem getNextURLLoop_cons_two (link : GoStr) (links : List GoStr) (p0 p1 : GoStr)
    (hp : goSplitChar ';' (goTrimSpace link) = [p0, p1]) :
    getNextURLLoop (link :: links) =
      if goContains p1 "rel=\"next\"".data then goTrimChars (goTrimSpace p0) "<>".data
      else getNextURLLoop links := by
  rw [getNextURLLoop, hp]

/-- C6 counterexample: the claim that every malformed Link header
yields the empty string is false on the code.  The header
`abc; rel="next"` is malformed (no angle-bracketed URL), yet the parser
splits it into two `;`-parts whose second contains rel="next" and
returns the trimmed first part `abc`, a non-empty next URL. -/
theorem claim_C6_getNextURL_counterexample :
    getNextURL "abc; rel=\"next\"".data = "abc".data ∧
    ("abc".data : GoStr) ≠ [] := by
  decide

/-- C6 (amended): the pagination-link parser returns exactly `url2` on
the header `<url1>; rel="prev", <url2>; rel="next"` (for URLs free of
the delimiter characters), returns the empty string on an empty
header, and returns the empty string on any header not containing the
text rel="next"; a malformed header that does contain that text may
instead yield a non-empty string, as the counterexample above shows. -/
theorem claim_C6_getNextURL (url1 url2 : GoStr)
    (h1c : ',' ∉ url1) (h1s : ';' ∉ url1)
    (h2c : ',' ∉ url2) (h2s : ';' ∉ url2) (h2l : '<' ∉ url2) (h2g : '>' ∉ url2) :
    getNextURL ('<' :: url1 ++ ">; rel=\"prev\", <".data ++ url2 ++ ">; rel=\"next\"".data) =
      url2 ∧
    getNextURL [] = [] ∧
    (∀ h : GoStr, goContains h "rel=\"next\"".data = false → getNextURL h = []) := by
  refine ⟨?_, rfl, ?_⟩
  · -- positive extraction
    have hm : ">; rel=\"prev\", <".data =
        ">; rel=\"prev\"".data ++ ',' :: [' ', '<'] := rfl
    have hhdr : '<' :: url1 ++ ">; rel=\"prev\", <".data ++ url2 ++ ">; rel=\"next\"".data =
        ('<' :: url1 ++ ">; rel=\"prev\"".data) ++
          ',' :: (' ' :: '<' :: (url2 ++ ">; rel=\"next\"".data)) := by
      rw [hm]
      simp [List.append_assoc]
    rw [hhdr]
    unfold getNextURL
    rw [if_neg (by simp)]
    have hseg1 : ',' ∉ '<' :: url1 ++ ">; rel=\"prev\"".data := by
      intro hmem
      rcases List.mem_cons.mp hmem with h | h
      · exact absurd h (by decide)
      · rcases List.mem_append.mp h with h | h
        · exact h1c h
        · exact absurd h (by decide)
    have hseg2 : ',' ∉ ' ' :: '<' :: (url2 ++ ">; rel=\"next\"".data) := by
      intro hmem
      rcases List.mem_cons.mp hmem with h | h
      · exact absurd h (by decide)
      · rcases List.mem_cons.mp h with h | h
        · exact absurd h (by decide)
        · rcases List.mem_append.mp h with h | h
          · exact h2c h
          · exact absurd h (by decide)
    rw [goSplitChar_append ',' _ _ hseg1, goSplitChar_of_not_mem ',' _ hseg2]
    -- first link: trimming is the identity and the split has two parts
    have ht1 : goTrimSpace ('<' :: url1 ++ ">; rel=\"prev\"".data) =
        '<' :: url1 ++ ">; rel=\"prev\"".data := by
      unfold goTrimSpace
      rw [List.cons_append, List.dropWhile_cons, if_neg (by decide), ← List.cons_append]
      rw [goDropWhileEnd_append goIsSpace ('<' :: url1) _ (by decide)]
      rw [show goDropWhileEnd goIsSpace (">; rel=\"prev\"".data) =
            ">; rel=\"prev\"".data from by decide]
    have hsp1 : goSplitChar ';' (goTrimSpace ('<' :: url1 ++ ">; rel=\"prev\"".data)) =
        [('<' :: url1 ++ ['>']), " rel=\"prev\"".data] := by
      rw [ht1]
      rw [show ('<' :: url1 ++ ">; rel=\"prev\"".data) =
            ('<' :: url1 ++ ['>']) ++ ';' :: " rel=\"prev\"".data from by simp]
      rw [goSplitChar_append ';' _ _ (by
        intro hmem
        rcases List.mem_cons.mp hmem with h | h
        · exact absurd h (by decide)
        · rcases List.mem_append.mp h with h | h
          · exact h1s h
          · exact absurd h (by decide))]
      rw [goSplitChar_of_not_mem ';' _ (by decide)]
    rw [getNextURLLoop_cons_two _ _ _ _ hsp1, if_neg (by decide)]
    -- second link
    have ht2 : goTrimSpace (' ' :: '<' :: (url2 ++ ">; rel=\"next\"".data)) =
        '<' :: (url2 ++ ">; rel=\"next\"".data) := by
      unfold goTrimSpace
      rw [List.dropWhile_cons, if_pos (by decide)]
      rw [List.dropWhile_cons, if_neg (by decide)]
      rw [show ('<' :: (url2 ++ ">; rel=\"next\"".data)) =
            ('<' :: url2) ++ ">; rel=\"next\"".data from by simp]
      rw [goDropWhileEnd_append goIsSpace ('<' :: url2) _ (by decide)]
      rw [show goDropWhileEnd goIsSpace (">; rel=\"next\"".data) =
            ">; rel=\"next\"".data from by decide]
    have hsp2 : goSplitChar ';' (goTrimSpace (' ' :: '<' :: (url2 ++ ">; rel=\"next\"".data))) =
        [('<' :: url2 ++ ['>']), " rel=\"next\"".data] := by
      rw [ht2]
      rw [show ('<' :: (url2 ++ ">; rel=\"next\"".data)) =
            ('<' :: url2 ++ ['>']) ++ ';' :: " rel=\"next\"".data from by simp]
      rw [goSplitChar_append ';' _ _ (by
        intro hmem
        rcases List.mem_cons.mp hmem with h | h
        · exact absurd h (by decide)
        · rcases List.mem_append.mp h with h | h
          · exact h2s h
          · exact absurd h (by decide))]
      rw [goSplitChar_of_not_mem ';' _ (by decide)]
    rw [getNextURLLoop_cons_two _ _ _ _ hsp2, if_pos (by decide)]
    -- final trims of `<url2>`
    have ht3 : goTrimSpace ('<' :: url2 ++ ['>']) = '<' :: url2 ++ ['>'] := by
      unfold goTrimSpace
      rw [List.cons_append, List.dropWhile_cons, if_neg (by decide), ← List.cons_append]
      rw [goDropWhileEnd_append goIsSpace ('<' :: url2) _ (by decide)]
      rw [show goDropWhileEnd goIsSpace (['>'] : GoStr) = ['>'] from by decide]
    rw [ht3]
    cases hu : url2 with
    | nil => decide
    | cons c u2 =>
      have hcmem : c ∈ url2 := by rw [hu]; exact List.mem_cons_self c u2
      have hcu : c ∉ ("<>".data : GoStr) := by
        intro hcm
        rcases List.mem_cons.mp hcm with h | h
        · exact h2l (h ▸ hcmem)
        · rcases List.mem_cons.mp h with h | h
          · exact h2g (h ▸ hcmem)
          · cases h
      unfold goTrimChars
      rw [List.cons_append, List.cons_append, List.dropWhile_cons, if_pos (by decide)]
      rw [List.dropWhile_cons, if_neg (by simpa using hcu)]
      rw [← List.cons_append]
      rw [goDropWhileEnd_append_singleton _ '>' (by decide)]
      rw [goDropWhileEnd_of_all_neg _ _ (fun d hd => by
        have hdu : d ∈ url2 := by rw [hu]; exact hd
        have hd1 : d ≠ '<' := fun he => h2l (he ▸ hdu)
        have hd2 : d ≠ '>' := fun he => h2g (he ▸ hdu)
        simp [hd1, hd2])]
  · -- malformed or absent rel="next"
    intro h hnc
    unfold getNextURL
    by_cases he : h = []
    · simp [he]
    · rw [if_neg he]
      exact getNextURLLoop_of_not_contains h hnc (goSplitChar ',' h)
        (fun l hl => goSplitChar_isInfix ',' h l hl)

/-- C6 witness: the parser extracts `u2` from
`<u1>; rel="prev", <u2>; rel="next"`. -/
theorem claim_C6_getNextURL_witness :
    (',' ∉ ("u1".data : GoStr)) ∧ ('>' ∉ ("u2".data : GoStr)) ∧
    getNextURL ('<' :: "u1".data ++ ">; rel=\"prev\", <".data ++ "u2".data ++
      ">; rel=\"next\"".data) = "u2".data :=
  ⟨by decide, by decide,
   (claim_C6_getNextURL "u1".data "u2".data (by decide) (by decide) (by decide)
      (by decide) (by decide) (by decide)).1⟩

/-- The fetch oracle serves a finite pagination chain from `u`: each
listed page is returned for the URL reached at that point, each page
leads to the next via its Link header, and the last page has no next
link. -/
def chainFrom (fetch : GoStr → FetchResult) : GoStr → List (List IssueObj × GoStr) → Prop
  | u, [] => u = []
  | u, (issues, link) :: rest =>
    u ≠ [] ∧ fetch u = .okPage issues link ∧ chainFrom fetch (getNextURL link) rest

/-- The URLs visited along a pagination chain. -/
def chainUrls : GoStr → List (List IssueObj × GoStr) → List GoStr
  | _, [] => []
  | u, (_, link) :: rest => u :: chainUrls (getNextURL link) rest

/-- The per-page fold of `Load` distributes over its accumulator. -/
theorem loadProcessIssue_foldl (l : IssuesLoader) :
    ∀ (issues : List IssueObj) (acc : List Doc),
      issues.foldl (loadProcessIssue l) acc =
        acc ++ issues.foldl (loadProcessIssue l) [] := by
  intro issues
  induction issues with
  | nil => intro acc; simp
  | cons issue rest ih =>
    intro acc
    rw [List.foldl_cons, List.foldl_cons, ih, ih (loadProcessIssue l [] issue)]
    unfold loadProcessIssue
    by_cases hc : (!l.includePRs && docIsPullRequest (parseIssue issue)) = true
    · simp [hc]
    · simp [hc, List.append_assoc]

/-- `buildURL` never returns the empty string. -/
theorem buildURL_ne_nil (l : IssuesLoader) : buildURL l ≠ [] := by
  intro h
  dsimp only [buildURL] at h
  split at h
  · simp [List.append_eq_nil] at h
  · simp [List.append_eq_nil] at h

/-- In the auto-pagination regime, the `Load` loop consumes exactly the
pagination chain, accumulating each page in order and visiting each
chain URL once. -/
theorem loadLoop_chain (fetch : GoStr → FetchResult) (l : IssuesLoader)
    (hpage : l.page = none) (hpp : l.perPage = none) :
    ∀ (pages : List (List IssueObj × GoStr)) (u : GoStr) (acc : List Doc) (fuel : Nat),
      chainFrom fetch u pages → pages.length ≤ fuel →
      loadLoop fetch l fuel u acc =
        (.ok (acc ++ (pages.map (fun pg => pg.1.foldl (loadProcessIssue l) [])).flatten),
         chainUrls u pages) := by
  intro pages
  induction pages with
  | nil =>
    intro u acc fuel hch _
    have hu : u = [] := hch
    subst hu
    simp [loadLoop, chainUrls]
  | cons pg rest ih =>
    rcases pg with ⟨issues, link⟩
    intro u acc fuel hch hlen
    obtain ⟨hu, hf, hcr⟩ := hch
    rcases u with _ | ⟨c, ur⟩
    · exact absurd rfl hu
    rcases fuel with _ | n
    · simp at hlen
    rw [loadLoop]
    rw [hf]
    simp only [hpage, hpp, Option.isSome_none, Bool.or_self, Bool.false_eq_true, if_false]
    rw [ih (getNextURL link) (issues.foldl (loadProcessIssue l) acc) n hcr (by
      simp only [List.length_cons] at hlen
      omega)]
    rw [loadProcessIssue_foldl l issues acc]
    simp [chainUrls, List.append_assoc]

/-- C5: with an explicit page or per-page value, `Load` fetches exactly
one page and stops; otherwise it follows the Link rel="next" chain,
accumulating every parsed page element in order, and terminates exactly
when no next link is present. -/
theorem claim_C5_load_pagination (fetch : GoStr → FetchResult) (l : IssuesLoader) (fuel : Nat) :
    ((l.page ≠ none ∨ l.perPage ≠ none) →
      ∀ issues link, fetch (buildURL l) = .okPage issues link → 1 ≤ fuel →
      loadGo fetch l fuel =
        (.ok (issues.foldl (loadProcessIssue l) []), [buildURL l])) ∧
    (l.page = none → l.perPage = none →
      ∀ pages, chainFrom fetch (buildURL l) pages → pages.length ≤ fuel →
      loadGo fetch l fuel =
        (.ok ((pages.map (fun pg => pg.1.foldl (loadProcessIssue l) [])).flatten),
         chainUrls (buildURL l) pages)) := by
  constructor
  · intro hps issues link hf hfuel
    have hs : (l.page.isSome || l.perPage.isSome) = true := by
      rcases hps with h | h
      · simp [Option.isSome_iff_ne_none, h]
      · simp [Option.isSome_iff_ne_none, h]
    unfold loadGo
    rcases hb : buildURL l with _ | ⟨c, ur⟩
    · exact absurd hb (buildURL_ne_nil l)
    rcases fuel with _ | n
    · omega
    rw [hb] at hf
    rw [loadLoop, hf]
    simp only [hs, if_true]
  · intro hpage hpp pages hch hlen
    have h := loadLoop_chain fetch l hpage hpp pages (buildURL l) [] fuel hch hlen
    unfold loadGo
    rw [h]
    simp

/-- Auto-paginating loader used by the C5 witness. -/
def c5Loader : IssuesLoader :=
  { repo := "o/r".data, accessToken := "t".data,
    gitHubAPIURL := "https://api.github.com".data, includePRs := true,
    milestone := none, state := "open".data, assignee := [], creator := [],
    mentioned := [], labels := [], sort := [], direction := [], since := [],
    page := none, perPage := none }

/-- Loader with explicit pagination used by the C5 witness. -/
def c5PagedLoader : IssuesLoader := { c5Loader with page := some 1, perPage := some 5 }

/-- First-page issue payload of the C5 witness. -/
def c5Issue1 : IssueObj := [("title".data, JVal.jstr "A".data)]

/-- Second-page issue payload of the C5 witness. -/
def c5Issue2 : IssueObj := [("title".data, JVal.jstr "B".data)]

/-- Fetch oracle of the C5 witness: every URL serves page one with a
next link except `next1`, which serves the final page. -/
def c5Fetch : GoStr → FetchResult := fun u =>
  if u = "next1".data then .okPage [c5Issue2] []
  else .okPage [c5Issue1] "<next1>; rel=\"next\"".data

/-- C5 witness: the paged loader fetches exactly one page; the default
loader walks the two-page chain and stops at the empty next link. -/
theorem claim_C5_load_pagination_witness :
    (c5PagedLoader.page ≠ none ∨ c5PagedLoader.perPage ≠ none) ∧
    loadGo c5Fetch c5PagedLoader 2 =
      (.ok ([c5Issue1].foldl (loadProcessIssue c5PagedLoader) []), [buildURL c5PagedLoader]) ∧
    loadGo c5Fetch c5Loader 2 =
      (.ok (([([c5Issue1], "<next1>; rel=\"next\"".data), ([c5Issue2], [])].map
          (fun pg => pg.1.foldl (loadProcessIssue c5Loader) [])).flatten),
       chainUrls (buildURL c5Loader)
         [([c5Issue1], "<next1>; rel=\"next\"".data), ([c5Issue2], [])]) :=
  ⟨Or.inl (by simp [c5PagedLoader]),
   (claim_C5_load_pagination c5Fetch c5PagedLoader 2).1
     (Or.inl (by simp [c5PagedLoader])) [c5Issue1] "<next1>; rel=\"next\"".data
     rfl (by omega),
   (claim_C5_load_pagination c5Fetch c5Loader 2).2 rfl rfl
     [([c5Issue1], "<next1>; rel=\"next\"".data), ([c5Issue2], [])]
     ⟨buildURL_ne_nil c5Loader, rfl, by decide, rfl, rfl⟩ (by decide)⟩

/-- Whether an `Except` value is a success (Go `err == nil` after a
constructor call). -/
def exceptIsOk {ε α : Type} : Except ε α → Bool
  | .ok _ => true
  | .error _ => false

/-- Environment with no variables set, used by the C4 counterexample
and witness. -/
def c4Env : WrapperEnv := ⟨[], [], []⟩

/-- Fully credentialed config used by the C4 counterexample and
witness. -/
def c4Config : WrapperConfig := ⟨"owner/repo".data, "123".data, "key".data, [], []⟩

/-- Remote whose repository fetch fails, used by the C4
counterexample. -/
def c4BadRemote : Remote := { c3Remote with reposGet := .error "boom".data }

/-- C4 counterexample: with every credential present and a valid
"owner/repo" string, wrapper construction still fails when the initial
repository fetch fails, so construction success is not equivalent to
credential presence. -/
theorem claim_C4_counterexample :
    c4Config.repository = "owner/repo".data ∧
    c4Config.appID ≠ [] ∧ c4Config.privateKey ≠ [] ∧
    exceptIsOk (newGitHubAPIWrapper c4Env c4BadRemote (some c4Config)).1 = false := by
  decide

/-- C4 (amended): each loader constructor succeeds exactly when the
repository string is nonempty and the environment access token is
present; the wrapper constructor fails before any remote call when a
required credential (after environment fallback) is missing, and with
all credentials present and a well-formed "owner/repo" string it makes
exactly one repository fetch and succeeds exactly when that fetch
succeeds. -/
theorem claim_C4_construction (envToken repo : GoStr)
    (opts : List (IssuesLoader → IssuesLoader)) (fopts : List (FileLoader → FileLoader))
    (env : WrapperEnv) (r : Remote) (config : Option WrapperConfig) :
    (exceptIsOk (newGitHubIssuesLoader envToken repo opts) = true ↔
      (¬ repo = [] ∧ ¬ envToken = [])) ∧
    (exceptIsOk (newGitHubFileLoader envToken repo fopts) = true ↔
      (¬ repo = [] ∧ ¬ envToken = [])) ∧
    (((mergeConfig env config).repository = [] ∨ (mergeConfig env config).appID = [] ∨
        (mergeConfig env config).privateKey = []) →
      exceptIsOk (newGitHubAPIWrapper env r config).1 = false ∧
      (newGitHubAPIWrapper env r config).2 = []) ∧
    (∀ owner name, (mergeConfig env config).repository ≠ [] →
      (mergeConfig env config).appID ≠ [] → (mergeConfig env config).privateKey ≠ [] →
      goSplitChar '/' (mergeConfig env config).repository = [owner, name] →
      exceptIsOk (newGitHubAPIWrapper env r config).1 = exceptIsOk r.reposGet ∧
      (newGitHubAPIWrapper env r config).2 = [(owner, name)]) := by
  refine ⟨?_, ?_, ?_, ?_⟩
  · unfold newGitHubIssuesLoader
    by_cases h1 : repo = []
    · simp [h1, exceptIsOk]
    · by_cases h2 : envToken = []
      · simp [h1, h2, exceptIsOk]
      · simp [h1, h2, exceptIsOk]
  · unfold newGitHubFileLoader
    by_cases h1 : repo = []
    · simp [h1, exceptIsOk]
    · by_cases h2 : envToken = []
      · simp [h1, h2, exceptIsOk]
      · simp [h1, h2, exceptIsOk]
  · intro hmiss
    unfold newGitHubAPIWrapper
    by_cases h1 : (mergeConfig env config).repository = []
    · simp [h1, exceptIsOk]
    · by_cases h2 : (mergeConfig env config).appID = []
      · simp [h1, h2, exceptIsOk]
      · by_cases h3 : (mergeConfig env config).privateKey = []
        · simp [h1, h2, h3, exceptIsOk]
        · rcases hmiss with h | h | h
          · exact absurd h h1
          · exact absurd h h2
          · exact absurd h h3
  · intro owner name h1 h2 h3 hsplit
    unfold newGitHubAPIWrapper
    simp only [h1, h2, h3, if_false]
    rw [hsplit]
    cases hg : r.reposGet with
    | error e => exact ⟨rfl, rfl⟩
    | ok info => exact ⟨rfl, rfl⟩

/-- Good remote used by the C4 witness. -/
def c4GoodRemote : Remote := c3Remote

/-- C4 witness: the loaders construct successfully given a repo and a
token; the wrapper fails without credentials before any remote call,
and succeeds with credentials when the repository fetch succeeds. -/
theorem claim_C4_construction_witness :
    (¬ ("o/r".data : GoStr) = [] ∧ ¬ ("t".data : GoStr) = []) ∧
    exceptIsOk (newGitHubIssuesLoader "t".data "o/r".data []) = true ∧
    (exceptIsOk (newGitHubAPIWrapper c4Env c4GoodRemote none).1 = false ∧
      (newGitHubAPIWrapper c4Env c4GoodRemote none).2 = []) ∧
    (exceptIsOk (newGitHubAPIWrapper c4Env c4GoodRemote (some c4Config)).1 =
        exceptIsOk c4GoodRemote.reposGet ∧
      (newGitHubAPIWrapper c4Env c4GoodRemote (some c4Config)).2 =
        [("owner".data, "repo".data)]) :=
  ⟨⟨by decide, by decide⟩,
   (claim_C4_construction "t".data "o/r".data [] [] c4Env c4GoodRemote none).1.mpr
     ⟨by decide, by decide⟩,
   (claim_C4_construction "t".data "o/r".data [] [] c4Env c4GoodRemote none).2.2.1
     (Or.inl (by decide)),
   (claim_C4_construction "t".data "o/r".data [] [] c4Env c4GoodRemote
      (some c4Config)).2.2.2 "owner".data "repo".data (by decide) (by decide) (by decide)
     (by decide)⟩
